import Mathlib

/-!
Shallow embedding of `src/mass.py` (class `Ame`): the molecule/isotope
expression parser and the mass-combination arithmetic of the
MassContaminant repository.

Python's runtime errors are modelled explicitly: `KeyError` (failed dict
lookup, e.g. an unknown element symbol) and `IndexError` (out-of-bounds
list indexing, e.g. `lst[i]` or `lst[0]` on an empty list) become the
`PyErr` error type of an `Except` computation.  The AME data table
(`self.df`, loaded from `mass_1.mas20.txt`, which is external data, not
part of the code) is a parameter: a list of `NuclideRecord` rows in table
order, so that row indices coincide with pandas positional indices.
-/

namespace Ame

/-- Python runtime errors that the translated code can raise. -/
inductive PyErr where
  | keyError
  | indexError
deriving DecidableEq, Repr

instance {ε α : Type} [DecidableEq ε] [DecidableEq α] : DecidableEq (Except ε α)
  | Except.ok a, Except.ok b =>
    if h : a = b then isTrue (by rw [h]) else isFalse (by intro hh; cases hh; exact h rfl)
  | Except.error a, Except.error b =>
    if h : a = b then isTrue (by rw [h]) else isFalse (by intro hh; cases hh; exact h rfl)
  | Except.ok _, Except.error _ => isFalse (by intro h; cases h)
  | Except.error _, Except.ok _ => isFalse (by intro h; cases h)

/-- Model of `lst[i]` on a Python list: `IndexError` when out of bounds. -/
def pyGet {α : Type} (l : List α) (i : Nat) : Except PyErr α :=
  match l[i]? with
  | some x => Except.ok x
  | none => Except.error PyErr.indexError

/-- Model of `lst[0]`: `IndexError` on an empty list. -/
def pyHead {α : Type} (l : List α) : Except PyErr α :=
  match l with
  | [] => Except.error PyErr.indexError
  | x :: _ => Except.ok x

/-- Model of a Python list comprehension with a fallible body: elements are
produced left to right and the first error aborts the whole comprehension. -/
def exMapM {α β : Type} (f : α → Except PyErr β) : List α → Except PyErr (List β)
  | [] => Except.ok []
  | x :: xs => do
    let y ← f x
    let ys ← exMapM f xs
    pure (y :: ys)

/-- Model of a fallible left fold over Python loop indices (the accumulating
`for` loop bodies in `get_ame_mass`). -/
def exFoldl {γ : Type} (f : γ → Nat → Except PyErr γ) : List Nat → γ → Except PyErr γ
  | [], acc => Except.ok acc
  | i :: is, acc => do
    let acc' ← f acc i
    exFoldl f is acc'

/-- Model of Python `range(start, stop, step)` for positive `step`. -/
def pyRange (start stop step : Nat) : List Nat :=
  (List.range ((stop - start + step - 1) / step)).map (fun k => start + step * k)

/-- Value of an ASCII digit character. -/
def digitVal (c : Char) : Nat := c.toNat - 48

/-- Translation of `re.findall('[0-9][0-9][0-9]|[0-9][0-9]|[0-9]', item)`
followed by `int(...)` on each match (`Ame.get_number_symbol`, line 83-84):
scan left to right; at each digit try to take three digits, else two, else
one; non-digits are skipped. -/
def findNumbers : List Char → List Nat
  | [] => []
  | c :: t =>
    if c.isDigit then
      match t with
      | d :: e :: t2 =>
        if d.isDigit then
          if e.isDigit then
            (100 * digitVal c + 10 * digitVal d + digitVal e) :: findNumbers t2
          else
            (10 * digitVal c + digitVal d) :: findNumbers (e :: t2)
        else
          digitVal c :: findNumbers (d :: e :: t2)
      | [d] =>
        if d.isDigit then
          [10 * digitVal c + digitVal d]
        else
          digitVal c :: findNumbers [d]
      | [] => [digitVal c]
    else
      findNumbers t

/-- Translation of `re.findall('[A-Z][a-z]|[A-Z]', item)`
(`Ame.get_number_symbol`, line 85): scan left to right; at each uppercase
letter take it together with one following lowercase letter when present,
else the uppercase letter alone; other characters are skipped. -/
def findSymbols : List Char → List String
  | [] => []
  | c :: t =>
    if c.isUpper then
      match t with
      | d :: t2 =>
        if d.isLower then
          String.mk [c, d] :: findSymbols t2
        else
          String.mk [c] :: findSymbols (d :: t2)
      | [] => [String.mk [c]]
    else
      findSymbols t

/-- Translation of `Ame.get_number_symbol` (lines 73-86). -/
def get_number_symbol (item : List Char) : List Nat × List String :=
  (findNumbers item, findSymbols item)

/-- The class attribute `Ame.symbols` (lines 30-41): the fixed periodic
symbol table, as an ordered association list (Python dict insertion order). -/
def symbols : List (String × Nat) :=
  [("n", 0), ("H", 1), ("He", 2), ("Li", 3), ("Be", 4), ("B", 5), ("C", 6), ("N", 7),
   ("O", 8), ("F", 9), ("Ne", 10), ("Na", 11), ("Mg", 12), ("Al", 13), ("Si", 14),
   ("P", 15), ("S", 16), ("Cl", 17), ("Ar", 18), ("K", 19), ("Ca", 20), ("Sc", 21),
   ("Ti", 22), ("V", 23), ("Cr", 24), ("Mn", 25), ("Fe", 26), ("Co", 27), ("Ni", 28),
   ("Cu", 29), ("Zn", 30), ("Ga", 31), ("Ge", 32), ("As", 33), ("Se", 34), ("Br", 35),
   ("Kr", 36), ("Rb", 37), ("Sr", 38), ("Y", 39), ("Zr", 40), ("Nb", 41), ("Mo", 42),
   ("Tc", 43), ("Ru", 44), ("Rh", 45), ("Pd", 46), ("Ag", 47), ("Cd", 48), ("In", 49),
   ("Sn", 50), ("Sb", 51), ("Te", 52), ("I", 53), ("Xe", 54), ("Cs", 55), ("Ba", 56),
   ("La", 57), ("Ce", 58), ("Pr", 59), ("Nd", 60), ("Pm", 61), ("Sm", 62), ("Eu", 63),
   ("Gd", 64), ("Tb", 65), ("Dy", 66), ("Ho", 67), ("Er", 68), ("Tm", 69), ("Yb", 70),
   ("Lu", 71), ("Hf", 72), ("Ta", 73), ("W", 74), ("Re", 75), ("Os", 76), ("Ir", 77),
   ("Pt", 78), ("Au", 79), ("Hg", 80), ("Tl", 81), ("Pb", 82), ("Bi", 83), ("Po", 84),
   ("At", 85), ("Rn", 86), ("Fr", 87), ("Ra", 88), ("Ac", 89), ("Th", 90), ("Pa", 91),
   ("U", 92), ("Np", 93), ("Pu", 94), ("Am", 95), ("Cm", 96), ("Bk", 97), ("Cf", 98),
   ("Es", 99), ("Fm", 100), ("Md", 101), ("No", 102), ("Lr", 103), ("Rf", 104),
   ("Db", 105), ("Sg", 106), ("Bh", 107), ("Hs", 108), ("Mt", 109), ("Ds", 110),
   ("Rg", 111), ("Cn", 112), ("Ed", 113), ("Fl", 114), ("Ef", 115), ("Lv", 116),
   ("Eh", 117), ("Ei", 118)]

/-- Lookup in the `symbols` dict: `some` proton number, or `none` for an
unknown key (which in Python raises `KeyError`). -/
def lookupSym (s : String) : Option Nat :=
  (symbols.find? (fun p => p.1 == s)).map (fun p => p.2)

/-- Model of `self.symbols[isym]` inside the comprehension of
`evaluate_expr` line 67: a missing key raises `KeyError`. -/
def symLookupE (s : String) : Except PyErr Nat :=
  match lookupSym s with
  | some z => Except.ok z
  | none => Except.error PyErr.keyError

/-- Translation of `Ame.get_molecule_info` (lines 88-111).  The list
comprehensions building `multi` and `a` index `tmp_nbrs` at
`range(0, len(tmp_nbrs), 2)` and `range(1, len(tmp_nbrs)+1, 2)`
respectively; the latter indexes one past the end when `len(tmp_nbrs)` is
odd, which raises `IndexError`. -/
def get_molecule_info (expr : List Char) : Except PyErr (List Nat × List Nat × List String) :=
  if ':' ∈ expr then do
    let (tmp_nbrs, sym) := get_number_symbol expr
    if tmp_nbrs.length > sym.length then
      let multi ← exMapM (pyGet tmp_nbrs) (pyRange 0 tmp_nbrs.length 2)
      let a ← exMapM (pyGet tmp_nbrs) (pyRange 1 (tmp_nbrs.length + 1) 2)
      pure (multi, a, sym)
    else
      pure (List.replicate tmp_nbrs.length 1, tmp_nbrs, sym)
  else
    -- Something is wrong with the item string, return empty results
    pure ([], [], [])

/-- Translation of `Ame.evaluate_expr` (lines 51-71) with `flag=False`
(the only mode `get_ame_mass` uses): returns
(symbols, multiplicities, atomic numbers, proton numbers). -/
def evaluate_expr (expr : List Char) :
    Except PyErr (List String × List Nat × List Nat × List Nat) := do
  let (m, a, sym) ←
    if ':' ∈ expr then
      get_molecule_info expr
    else do
      let (a, sym) := get_number_symbol expr
      pure (List.replicate a.length 1, a, sym)
  let z ← exMapM symLookupE sym
  pure (sym, m, a, z)

/-- One row of `self.df` after `load_table` and `add_charge_col`: columns
`N, Z, A, EL, ME, MEunc, amunc, ame_tot, charge` (the raw columns dropped
in `load_table` are not represented).  Masses are exact rationals. -/
structure NuclideRecord where
  N : Nat
  Z : Nat
  A : Nat
  EL : String
  ME : ℚ
  MEunc : ℚ
  amunc : ℚ
  ame_tot : ℚ
  charge : Nat
deriving DecidableEq, Repr

/-- Placeholder row used only as the default of `List.getD` in statements;
never returned by the code model. -/
def defaultRec : NuclideRecord := ⟨0, 0, 0, "", 0, 0, 0, 0, 1⟩

/-- Boolean form of the row filter `(df['EL'] == el) & (df['A'] == a)`. -/
def rowMatches (r : NuclideRecord) (el : String) (a : Nat) : Bool :=
  r.EL == el && r.A == a

/-- Translation of `self.df[cond1 & cond2].index.tolist()`
(`get_ame_mass` lines 178-180): the positional indices of all rows whose
`EL` and `A` columns match, in increasing order. -/
def matchIdx (df : List NuclideRecord) (el : String) (a : Nat) : List Nat :=
  match df with
  | [] => []
  | r :: rest =>
    if rowMatches r el a then
      0 :: (matchIdx rest el a).map (fun j => j + 1)
    else
      (matchIdx rest el a).map (fun j => j + 1)

/-- First table row matching `(el, a)`, i.e. the row the code reads through
`self.idx[i][0]` when the match list is non-empty. -/
def firstMatch (df : List NuclideRecord) (el : String) (a : Nat) : Option NuclideRecord :=
  df.find? (fun r => rowMatches r el a)

/-- The loop of `get_ame_mass` lines 177-180 building `self.idx`:
`label[i]` is always in bounds, but `atomic_number[i]` raises `IndexError`
when the parsed number list is shorter than the symbol list. -/
def buildIdx (df : List NuclideRecord) (label : List String) (atomic_number : List Nat) :
    Except PyErr (List (List Nat)) :=
  exMapM
    (fun i => do
      let el ← pyGet label i
      let ai ← pyGet atomic_number i
      pure (matchIdx df el ai))
    (List.range label.length)

/-- The accumulating loop of `get_ame_mass` lines 185-190:
`ame_mass += mul * part` and `ame_unc += mul * unc_part ** 2`, where
`self.idx[i][0]` raises `IndexError` when constituent `i` had no matching
row, and `multiplicity[i]` raises `IndexError` when the multiplicity list
is too short. -/
def massStep (df : List NuclideRecord) (multiplicity : List Nat) (idx : List (List Nat))
    (acc : ℚ × ℚ) (i : Nat) : Except PyErr (ℚ × ℚ) := do
  let mul ← pyGet multiplicity i
  let il ← pyGet idx i
  let j ← pyHead il
  let r ← pyGet df j
  pure (acc.1 + (mul : ℚ) * r.ame_tot, acc.2 + (mul : ℚ) * r.amunc ^ 2)

def massLoop (df : List NuclideRecord) (multiplicity : List Nat) (idx : List (List Nat)) :
    Except PyErr (ℚ × ℚ) :=
  exFoldl (massStep df multiplicity idx) (List.range idx.length) ((0 : ℚ), (0 : ℚ))

/-- The tuple `get_ame_mass` returns (line 195), except that the
uncertainty slot holds the accumulated `ame_unc` BEFORE the final
`np.sqrt`: the value the Python function actually returns in that slot is
`Real.sqrt ame_unc_sq` (see the uncertainty theorems below).  `n = a - z`
can be negative, hence `Int`. -/
structure AmeResult where
  sym : String
  ame_mass : ℚ
  ame_unc_sq : ℚ
  a : Nat
  z : Nat
  n : Int
  q : Nat
deriving DecidableEq, Repr

/-- Translation of `Ame.get_ame_mass` (lines 160-195) over an explicit
table `df`.  The guard `if not bool(self.idx)` is only true when the
index list itself is empty (no constituents at all): a list of empty
lists is truthy in Python, so a per-constituent lookup miss reaches
`self.idx[i][0]` and raises `IndexError`. -/
def get_ame_mass (df : List NuclideRecord) (el_expr : List Char) : Except PyErr AmeResult := do
  let (label, multiplicity, atomic_number, z) ← evaluate_expr el_expr
  let idx ← buildIdx df label atomic_number
  let acc ←
    if idx.isEmpty then
      -- print("Element or Atomic number not found in database")
      pure ((0 : ℚ), (0 : ℚ))
    else
      massLoop df multiplicity idx
  let a := (List.zipWith (fun ai mi => ai * mi) atomic_number multiplicity).sum
  let zsum := z.sum
  pure ⟨String.join label, acc.1, acc.2, a, zsum, (a : Int) - (zsum : Int), 1⟩

/-- The conversion constant `self.scale = 931494.061` (line 45). -/
def scale : ℚ := 931494.061

/-- Translation of `Ame.mass_excess` (lines 223-234). -/
def mass_excess (atomic_mass unc_atomic_mass mass_number : ℚ) : ℚ × ℚ :=
  ((atomic_mass * 1e-6 - mass_number) * scale,
   unc_atomic_mass * 1e-6 * scale)

/-- The isomer back-conversion of `Ame.calc_isomer_mass` (lines 257-258):
`me = base_me + ex_erg; amass = ((me / self.scale) + a) * 1E6`. -/
def calc_isomer_amass (base_me ex_erg a : ℚ) : ℚ :=
  ((base_me + ex_erg) / scale + a) * 1e6

/-- Specification-side helper: the first matching row for each constituent,
pairing the parsed symbols with the parsed mass numbers positionally.
`none` when a constituent has no matching row or runs out of mass numbers. -/
def resolvedRecords (df : List NuclideRecord) :
    List String → List Nat → Option (List NuclideRecord)
  | [], _ => some []
  | _ :: _, [] => none
  | el :: ls, a :: as2 => do
    let r ← firstMatch df el a
    let rest ← resolvedRecords df ls as2
    some (r :: rest)

@[simp] lemma ok_bind {α β : Type} (x : α) (f : α → Except PyErr β) :
    (Except.ok x >>= f) = f x := rfl

@[simp] lemma error_bind {α β : Type} (e : PyErr) (f : α → Except PyErr β) :
    ((Except.error e : Except PyErr α) >>= f) = Except.error e := rfl

lemma pyGet_ok {α : Type} {l : List α} {i : Nat} {x : α} (h : l[i]? = some x) :
    pyGet l i = Except.ok x := by
  unfold pyGet
  rw [h]

lemma pyGet_getD {α : Type} (l : List α) (i : Nat) (d : α) (h : i < l.length) :
    pyGet l i = Except.ok (l.getD i d) :=
  pyGet_ok (by simp [List.getElem?_eq_getElem, h, List.getD_eq_getElem?_getD])

lemma pyHead_ok {α : Type} {l : List α} {x : α} (h : l.head? = some x) :
    pyHead l = Except.ok x := by
  cases l with
  | nil => cases h
  | cons y t =>
    simp only [List.head?_cons, Option.some.injEq] at h
    simp [pyHead, h]

lemma exMapM_ok {α β : Type} {f : α → Except PyErr β} {g : α → β} :
    ∀ {l : List α}, (∀ x ∈ l, f x = Except.ok (g x)) →
      exMapM f l = Except.ok (l.map g)
  | [], _ => rfl
  | x :: xs, h => by
    have hx : f x = Except.ok (g x) := h x (List.mem_cons_self x xs)
    have hxs : exMapM f xs = Except.ok (xs.map g) :=
      exMapM_ok (fun y hy => h y (List.mem_cons_of_mem x hy))
    simp [exMapM, hx, hxs]

lemma exFoldl_add {f : ℚ × ℚ → Nat → Except PyErr (ℚ × ℚ)} {v : Nat → ℚ × ℚ} :
    ∀ (is : List Nat),
      (∀ i ∈ is, ∀ acc : ℚ × ℚ, f acc i = Except.ok (acc.1 + (v i).1, acc.2 + (v i).2)) →
      ∀ acc : ℚ × ℚ, exFoldl f is acc =
        Except.ok (acc.1 + ((is.map (fun i => (v i).1)).sum),
                   acc.2 + ((is.map (fun i => (v i).2)).sum))
  | [], _, acc => by simp [exFoldl]
  | i :: is, h, acc => by
    have hi := h i (List.mem_cons_self i is) acc
    have hrec := exFoldl_add is (fun j hj => h j (List.mem_cons_of_mem i hj))
      (acc.1 + (v i).1, acc.2 + (v i).2)
    simp only [exFoldl, hi, ok_bind, hrec, List.map_cons, List.sum_cons]
    refine congrArg Except.ok ?_
    rw [Prod.mk.injEq]
    exact ⟨by ring, by ring⟩

lemma matchIdx_first {df : List NuclideRecord} {el : String} {a : Nat} {r : NuclideRecord}
    (h : firstMatch df el a = some r) :
    ∃ j, (matchIdx df el a).head? = some j ∧ df[j]? = some r := by
  induction df with
  | nil => cases h
  | cons r0 rest ih =>
    unfold firstMatch at h
    rw [List.find?_cons] at h
    by_cases hm : rowMatches r0 el a
    · simp only [hm] at h
      refine ⟨0, ?_, ?_⟩
      · simp [matchIdx, hm]
      · simpa using h
    · simp only [Bool.not_eq_true] at hm
      simp only [hm] at h
      obtain ⟨j, hj1, hj2⟩ := ih h
      refine ⟨j + 1, ?_, ?_⟩
      · simp [matchIdx, hm, List.head?_map, hj1]
      · simpa using hj2

lemma resolvedRecords_spec {df : List NuclideRecord} :
    ∀ {label : List String} {anums : List Nat} {recs : List NuclideRecord},
      resolvedRecords df label anums = some recs →
      recs.length = label.length ∧ label.length ≤ anums.length ∧
        ∀ i, i < label.length →
          firstMatch df (label.getD i "") (anums.getD i 0) = some (recs.getD i defaultRec)
  | [], _, recs, h => by
    simp only [resolvedRecords, Option.some.injEq] at h
    subst h
    exact ⟨rfl, Nat.zero_le _, fun i hi => absurd hi (Nat.not_lt_zero i)⟩
  | el :: ls, [], recs, h => by cases h
  | el :: ls, a :: as2, recs, h => by
    simp only [resolvedRecords, Option.bind_eq_bind] at h
    cases hf : firstMatch df el a with
    | none => rw [hf] at h; cases h
    | some r =>
      rw [hf] at h
      cases hrest : resolvedRecords df ls as2 with
      | none => rw [hrest] at h; cases h
      | some rest =>
        rw [hrest] at h
        simp only [Option.some_bind, Option.some.injEq] at h
        subst h
        obtain ⟨hlen, hle, hfirst⟩ := resolvedRecords_spec hrest
        refine ⟨by simpa using hlen, by simpa using Nat.succ_le_succ hle, ?_⟩
        intro i hi
        cases i with
        | zero => simpa using hf
        | succ i' =>
          have hi' : i' < ls.length := Nat.lt_of_succ_lt_succ hi
          simpa using hfirst i' hi'

lemma range_map_getElem? {α : Type} (g : Nat → α) {n i : Nat} (h : i < n) :
    ((List.range n).map g)[i]? = some (g i) := by
  simp [List.getElem?_map, List.getElem?_range, h]

lemma zipWith_eq_range_map {α β γ : Type} (f : α → β → γ) (da : α) (db : β) :
    ∀ (ys : List β) (xs : List α), ys.length ≤ xs.length →
      List.zipWith f xs ys =
        (List.range ys.length).map (fun i => f (xs.getD i da) (ys.getD i db))
  | [], xs, _ => by simp
  | y :: ys, [], h => by simp at h
  | y :: ys, x :: xs, h => by
    have h' : ys.length ≤ xs.length := Nat.le_of_succ_le_succ (by simpa using h)
    simp only [List.zipWith_cons_cons, List.length_cons, List.range_succ_eq_map,
      List.map_cons, List.map_map]
    refine congrArg₂ _ rfl ?_
    rw [zipWith_eq_range_map f da db ys xs h']
    rfl

/-- Central computation lemma, used by several claims below: when the
expression parses, the multiplicity list covers the symbol list, and every
parsed `(symbol, massNumber)` constituent resolves to a table row, then
`get_ame_mass` succeeds and every slot of its result is the corresponding
closed-form accumulation of the source's loops. -/
theorem get_ame_mass_resolved (df : List NuclideRecord) (expr : List Char)
    (label : List String) (m anums zl : List Nat) (recs : List NuclideRecord)
    (he : evaluate_expr expr = Except.ok (label, m, anums, zl))
    (hm : label.length ≤ m.length)
    (hne : label ≠ [])
    (hr : resolvedRecords df label anums = some recs) :
    get_ame_mass df expr = Except.ok
      { sym := String.join label
        ame_mass := (List.zipWith (fun (mi : Nat) r => (mi : ℚ) * r.ame_tot) m recs).sum
        ame_unc_sq := (List.zipWith (fun (mi : Nat) r => (mi : ℚ) * r.amunc ^ 2) m recs).sum
        a := (List.zipWith (fun ai mi => ai * mi) anums m).sum
        z := zl.sum
        n := ((((List.zipWith (fun ai mi => ai * mi) anums m).sum : Nat) : Int) -
          ((zl.sum : Nat) : Int))
        q := 1 } := by
  obtain ⟨hlen, hle, hfirst⟩ := resolvedRecords_spec hr
  have hnpos : 0 < label.length := List.length_pos.mpr hne
  have hgIdx : buildIdx df label anums =
      Except.ok ((List.range label.length).map
        (fun i => matchIdx df (label.getD i "") (anums.getD i 0))) := by
    unfold buildIdx
    refine exMapM_ok ?_
    intro i hi
    have hi' : i < label.length := List.mem_range.mp hi
    rw [pyGet_getD label i "" hi', ok_bind,
      pyGet_getD anums i 0 (lt_of_lt_of_le hi' hle), ok_bind]
    rfl
  have hrecs_m : recs.length ≤ m.length := hlen ▸ hm
  have hstep : ∀ i ∈ List.range label.length, ∀ acc : ℚ × ℚ,
      massStep df m ((List.range label.length).map
          (fun i => matchIdx df (label.getD i "") (anums.getD i 0))) acc i =
        Except.ok
          (acc.1 + ((m.getD i 0 : ℚ) * (recs.getD i defaultRec).ame_tot,
            (m.getD i 0 : ℚ) * (recs.getD i defaultRec).amunc ^ 2).1,
           acc.2 + ((m.getD i 0 : ℚ) * (recs.getD i defaultRec).ame_tot,
            (m.getD i 0 : ℚ) * (recs.getD i defaultRec).amunc ^ 2).2) := by
    intro i hi acc
    have hi' : i < label.length := List.mem_range.mp hi
    obtain ⟨j, hj1, hj2⟩ := matchIdx_first (hfirst i hi')
    unfold massStep
    rw [pyGet_getD m i 0 (lt_of_lt_of_le hi' hm), ok_bind,
      pyGet_ok (range_map_getElem? _ hi'), ok_bind,
      pyHead_ok hj1, ok_bind, pyGet_ok hj2, ok_bind]
    rfl
  have hfold := exFoldl_add (List.range label.length) hstep ((0 : ℚ), (0 : ℚ))
  have hloop : massLoop df m ((List.range label.length).map
      (fun i => matchIdx df (label.getD i "") (anums.getD i 0))) =
      Except.ok
        (((List.range label.length).map
          (fun i => (m.getD i 0 : ℚ) * (recs.getD i defaultRec).ame_tot)).sum,
         ((List.range label.length).map
          (fun i => (m.getD i 0 : ℚ) * (recs.getD i defaultRec).amunc ^ 2)).sum) := by
    unfold massLoop
    rw [List.length_map, List.length_range, hfold]
    simp
  have hmass : (List.zipWith (fun (mi : Nat) r => (mi : ℚ) * r.ame_tot) m recs).sum =
      ((List.range label.length).map
        (fun i => (m.getD i 0 : ℚ) * (recs.getD i defaultRec).ame_tot)).sum := by
    rw [zipWith_eq_range_map (fun (mi : Nat) r => (mi : ℚ) * r.ame_tot) 0 defaultRec recs m
      hrecs_m, hlen]
  have hunc : (List.zipWith (fun (mi : Nat) r => (mi : ℚ) * r.amunc ^ 2) m recs).sum =
      ((List.range label.length).map
        (fun i => (m.getD i 0 : ℚ) * (recs.getD i defaultRec).amunc ^ 2)).sum := by
    rw [zipWith_eq_range_map (fun (mi : Nat) r => (mi : ℚ) * r.amunc ^ 2) 0 defaultRec recs m
      hrecs_m, hlen]
  have hempty : ((List.range label.length).map
      (fun i => matchIdx df (label.getD i "") (anums.getD i 0))).isEmpty = false := by
    simp [List.isEmpty_iff, hne, Nat.pos_iff_ne_zero.mp hnpos]
  unfold get_ame_mass
  rw [he, ok_bind]
  show (buildIdx df label anums >>= _) = _
  rw [hgIdx, ok_bind]
  simp only [hempty, Bool.false_eq_true, if_false, hloop, ok_bind, hmass, hunc]
  rfl

/-- Unfolding of membership in `pyRange`. -/
lemma pyRange_mem {start stop step i : Nat} (h : i ∈ pyRange start stop step) :
    ∃ j, j < (stop - start + step - 1) / step ∧ i = start + step * j := by
  unfold pyRange at h
  simp only [List.mem_map, List.mem_range] at h
  obtain ⟨j, hj, hje⟩ := h
  exact ⟨j, hj, hje.symm⟩

/-- Concrete two-row table used by the witnesses below: hydrogen-1 and
oxygen-16 rows with AME-2020-like values as exact rationals
(micro-atomic-mass-units in `ame_tot`/`amunc`, keV in `ME`/`MEunc`). -/
def hRec : NuclideRecord :=
  ⟨0, 1, 1, "H", 7288971061 / 1000000, 13 / 100000, 14 / 100000, 1007825031898 / 1000000, 1⟩

/-- Oxygen-16 row of the witness table. -/
def oRec : NuclideRecord :=
  ⟨8, 8, 16, "O", -4737002, 32 / 100, 32 / 100, 15994914619257 / 1000000, 1⟩

/-- The witness table. -/
def dfW : List NuclideRecord := [hRec, oRec]

/-- C7: for every atomic mass `m`, uncertainty `unc` and mass number `A`
(exact rationals), `mass_excess` followed by the isomer back-conversion of
`calc_isomer_mass` with excitation energy 0 reproduces `m` exactly. -/
theorem C7_mass_excess_round_trip (m unc A : ℚ) :
    calc_isomer_amass (mass_excess m unc A).1 0 A = m := by
  unfold calc_isomer_amass mass_excess scale
  have hs : (931494.061 : ℚ) ≠ 0 := by norm_num
  field_simp
  ring

/-- C10: for two expressions that both contain at least one colon, the
evaluation result depends only on the extracted digit runs and symbol
tokens: the number and positions of the colons are otherwise irrelevant. -/
theorem C10_colon_positions_irrelevant (e1 e2 : List Char)
    (h1 : ':' ∈ e1) (h2 : ':' ∈ e2)
    (hn : findNumbers e1 = findNumbers e2)
    (hs : findSymbols e1 = findSymbols e2) :
    evaluate_expr e1 = evaluate_expr e2 := by
  unfold evaluate_expr get_molecule_info get_number_symbol
  rw [if_pos h1, if_pos h2, if_pos h1, if_pos h2, hn, hs]

/-- C10 witness: `"40Ca:19F"` and `"40:Ca19F"` have the same digit runs and
symbol tokens, so they evaluate identically even though the colon sits in
the middle of what reads as a constituent. -/
theorem C10_witness :
    evaluate_expr (String.toList "40Ca:19F") = evaluate_expr (String.toList "40:Ca19F") :=
  C10_colon_positions_irrelevant (String.toList "40Ca:19F") (String.toList "40:Ca19F")
    (by decide) (by decide) rfl rfl

/-- C8 counterexample: `"2H1:1O"` contains a colon and its extracted
numbers `[2,1,1]` outnumber its symbols `["H","O"]`, yet parsing is not
total: the odd-index comprehension indexes one past the end of the number
list and raises `IndexError`. -/
theorem C8_counterexample :
    (':' ∈ String.toList "2H1:1O" ∧
      (findNumbers (String.toList "2H1:1O")).length >
        (findSymbols (String.toList "2H1:1O")).length) ∧
    get_molecule_info (String.toList "2H1:1O") = Except.error PyErr.indexError :=
  ⟨⟨by decide, by decide⟩, rfl⟩

/-- C8 amended: for a colon-containing expression whose extracted numbers
outnumber its symbols, IF the number count is even then parsing returns,
with the even-indexed numbers as multiplicities and the odd-indexed numbers
as mass numbers, the two lists having equal length; when the number count
is odd the comprehension for the odd-indexed list raises `IndexError`
(see the counterexample). -/
theorem C8_even_interleaving (expr : List Char)
    (hc : ':' ∈ expr)
    (hgt : (findNumbers expr).length > (findSymbols expr).length)
    (hev : (findNumbers expr).length % 2 = 0) :
    get_molecule_info expr = Except.ok
      ((pyRange 0 (findNumbers expr).length 2).map (fun i => (findNumbers expr).getD i 0),
       (pyRange 1 ((findNumbers expr).length + 1) 2).map (fun i => (findNumbers expr).getD i 0),
       findSymbols expr) ∧
    ((pyRange 0 (findNumbers expr).length 2).map
        (fun i => (findNumbers expr).getD i 0)).length =
      ((pyRange 1 ((findNumbers expr).length + 1) 2).map
        (fun i => (findNumbers expr).getD i 0)).length := by
  have hmulti : exMapM (pyGet (findNumbers expr)) (pyRange 0 (findNumbers expr).length 2) =
      Except.ok ((pyRange 0 (findNumbers expr).length 2).map
        (fun i => (findNumbers expr).getD i 0)) := by
    refine exMapM_ok ?_
    intro i hi
    obtain ⟨j, hj, hje⟩ := pyRange_mem hi
    exact pyGet_getD _ i 0 (by omega)
  have ha : exMapM (pyGet (findNumbers expr)) (pyRange 1 ((findNumbers expr).length + 1) 2) =
      Except.ok ((pyRange 1 ((findNumbers expr).length + 1) 2).map
        (fun i => (findNumbers expr).getD i 0)) := by
    refine exMapM_ok ?_
    intro i hi
    obtain ⟨j, hj, hje⟩ := pyRange_mem hi
    exact pyGet_getD _ i 0 (by omega)
  constructor
  · unfold get_molecule_info get_number_symbol
    rw [if_pos hc]
    simp only [if_pos hgt, hmulti, ok_bind, ha]
    rfl
  · simp only [List.length_map]
    unfold pyRange
    simp only [List.length_map, List.length_range]
    omega

/-- C8 witness: `"2H1:1O16"` has four extracted numbers against two
symbols, so the interleaving applies and yields equal-length lists. -/
theorem C8_witness :
    get_molecule_info (String.toList "2H1:1O16") = Except.ok
      ((pyRange 0 (findNumbers (String.toList "2H1:1O16")).length 2).map
        (fun i => (findNumbers (String.toList "2H1:1O16")).getD i 0),
       (pyRange 1 ((findNumbers (String.toList "2H1:1O16")).length + 1) 2).map
        (fun i => (findNumbers (String.toList "2H1:1O16")).getD i 0),
       findSymbols (String.toList "2H1:1O16")) ∧
    ((pyRange 0 (findNumbers (String.toList "2H1:1O16")).length 2).map
        (fun i => (findNumbers (String.toList "2H1:1O16")).getD i 0)).length =
      ((pyRange 1 ((findNumbers (String.toList "2H1:1O16")).length + 1) 2).map
        (fun i => (findNumbers (String.toList "2H1:1O16")).getD i 0)).length :=
  C8_even_interleaving (String.toList "2H1:1O16") (by decide) (by decide) (by decide)

/-- C9 counterexample: for the colon-free expression `"U"` (mass number
omitted), evaluation does NOT yield one constituent with multiplicity 1 and
mass number 0: it returns empty multiplicity and mass-number lists against
the non-empty symbol list `["U"]`. -/
theorem C9_counterexample :
    evaluate_expr (String.toList "U") = Except.ok (["U"], [], [], [92]) ∧
      evaluate_expr (String.toList "U") ≠ Except.ok (["U"], [1], [0], [92]) :=
  ⟨rfl, by decide⟩

/-- C9 amended: a colon-free expression with one known symbol token and no
digits evaluates to mismatched-length lists: symbol list `[s]` and proton
list `[z]` against EMPTY mass-number and multiplicity lists (the code sets
`m = [1] * len(a)` with `a` empty, not one constituent with an
undefined/zero mass number). -/
theorem C9_omitted_mass_number (expr : List Char) (s : String) (z : Nat)
    (hc : ':' ∉ expr) (hn : findNumbers expr = []) (hs : findSymbols expr = [s])
    (hz : lookupSym s = some z) :
    evaluate_expr expr = Except.ok ([s], [], [], [z]) := by
  unfold evaluate_expr get_number_symbol
  rw [if_neg hc]
  simp [hn, hs, exMapM, symLookupE, hz]

/-- C9 witness: the expression `"U"` with the known symbol `"U"` (proton
number 92). -/
theorem C9_witness : evaluate_expr (String.toList "U") = Except.ok (["U"], [], [], [92]) :=
  C9_omitted_mass_number (String.toList "U") "U" 92 (by decide) rfl rfl rfl

/-- Witness table for C2: a single oxygen-16 row; hydrogen is absent. -/
def dfC2 : List NuclideRecord := [oRec]

/-- C2: the expression `"3H"` parses to the single constituent `(H, 3)`
(non-empty constituent list), the table `dfC2` has no row matching
`("H", 3)`, and `get_ame_mass` then raises `IndexError` at
`self.idx[i][0]` instead of logging the "not found" notice and returning a
zero-mass result: the guard `if not bool(self.idx)` never fires for a
per-constituent miss because `self.idx` is a non-empty list of (empty)
lists, which is truthy in Python. -/
theorem C2_lookup_miss_crashes :
    evaluate_expr (String.toList "3H") = Except.ok (["H"], [1], [3], [1]) ∧
    firstMatch dfC2 "H" 3 = none ∧
    get_ame_mass dfC2 (String.toList "3H") = Except.error PyErr.indexError :=
  ⟨rfl, rfl, rfl⟩

/-- The proton-number comprehension raises `KeyError` as soon as it reaches
a symbol that is not a key of the `symbols` dict. -/
lemma exMapM_symLookup_err :
    ∀ (sym : List String), (∃ s ∈ sym, lookupSym s = none) →
      exMapM symLookupE sym = Except.error PyErr.keyError
  | [], h => by
    obtain ⟨s, hs, _⟩ := h
    cases hs
  | s0 :: rest, h => by
    cases hl : lookupSym s0 with
    | none => simp [exMapM, symLookupE, hl]
    | some z =>
      obtain ⟨s, hs, hu⟩ := h
      have hmem : s ∈ rest := by
        rcases List.mem_cons.mp hs with he | hm
        · subst he
          rw [hl] at hu
          cases hu
        · exact hm
      have hrec := exMapM_symLookup_err rest ⟨s, hmem, hu⟩
      simp [exMapM, symLookupE, hl, hrec]

/-- When `get_molecule_info` succeeds on a colon-containing expression, the
symbol component of its result is exactly the extracted symbol list. -/
lemma get_molecule_info_sym {expr : List Char} {m a : List Nat} {sym : List String}
    (hc : ':' ∈ expr) (h : get_molecule_info expr = Except.ok (m, a, sym)) :
    sym = findSymbols expr := by
  unfold get_molecule_info get_number_symbol at h
  rw [if_pos hc] at h
  by_cases hgt : (findNumbers expr).length > (findSymbols expr).length
  · simp only [if_pos hgt] at h
    cases h1 : exMapM (pyGet (findNumbers expr)) (pyRange 0 (findNumbers expr).length 2) with
    | error e =>
      rw [h1, error_bind] at h
      cases h
    | ok l1 =>
      rw [h1, ok_bind] at h
      cases h2 : exMapM (pyGet (findNumbers expr))
          (pyRange 1 ((findNumbers expr).length + 1) 2) with
      | error e =>
        rw [h2, error_bind] at h
        cases h
      | ok l2 =>
        rw [h2, ok_bind] at h
        have := (Except.ok.injEq _ _).mp h
        exact (congrArg (fun t => t.2.2) this).symm
  · simp only [if_neg hgt] at h
    have : (Except.ok (List.replicate (findNumbers expr).length 1, findNumbers expr,
        findSymbols expr) : Except PyErr (List Nat × List Nat × List String)) =
        Except.ok (m, a, sym) := h
    have h3 := (Except.ok.injEq _ _).mp this
    exact (congrArg (fun t => t.2.2) h3).symm

/-- C6 counterexample: `"2Zz1:1O"` contains the unknown symbol token
`"Zz"`, yet evaluation raises `IndexError` from the molecule parse (three
extracted numbers against two symbols), not the unknown-symbol `KeyError`:
the parse crash preempts symbol resolution. -/
theorem C6_counterexample :
    ("Zz" ∈ findSymbols (String.toList "2Zz1:1O") ∧ lookupSym "Zz" = none) ∧
    evaluate_expr (String.toList "2Zz1:1O") = Except.error PyErr.indexError ∧
    evaluate_expr (String.toList "2Zz1:1O") ≠ Except.error PyErr.keyError :=
  ⟨⟨by decide, rfl⟩, rfl, by decide⟩

/-- C6 amended: an expression containing an element-symbol token that is
not in the periodic symbol table never evaluates successfully and never
resolves the symbol to proton number 0 or any default: evaluation raises
the unknown-symbol `KeyError`, except that a colon-containing expression
whose parse itself crashes raises `IndexError` before symbol resolution is
reached; in particular every colon-free such expression (like `"99Zz"`)
raises `KeyError`. -/
theorem C6_unknown_symbol_raises (expr : List Char) (s : String)
    (hs : s ∈ findSymbols expr) (hu : lookupSym s = none) :
    (evaluate_expr expr = Except.error PyErr.keyError ∨
      evaluate_expr expr = Except.error PyErr.indexError) ∧
    (':' ∉ expr → evaluate_expr expr = Except.error PyErr.keyError) := by
  by_cases hc : ':' ∈ expr
  · refine ⟨?_, fun hnc => absurd hc hnc⟩
    cases hg : get_molecule_info expr with
    | error e =>
      have heval : evaluate_expr expr = Except.error e := by
        unfold evaluate_expr
        rw [if_pos hc, hg, error_bind]
      cases e with
      | keyError => exact Or.inl heval
      | indexError => exact Or.inr heval
    | ok t =>
      obtain ⟨m, a, sym2⟩ := t
      have hsym : sym2 = findSymbols expr := get_molecule_info_sym hc hg
      subst hsym
      have heval : evaluate_expr expr = Except.error PyErr.keyError := by
        unfold evaluate_expr
        rw [if_pos hc, hg, ok_bind]
        show (exMapM symLookupE (findSymbols expr) >>= _) = _
        rw [exMapM_symLookup_err _ ⟨s, hs, hu⟩, error_bind]
      exact Or.inl heval
  · have heval : evaluate_expr expr = Except.error PyErr.keyError := by
      unfold evaluate_expr get_number_symbol
      rw [if_neg hc]
      show (exMapM symLookupE (findSymbols expr) >>= _) = _
      rw [exMapM_symLookup_err _ ⟨s, hs, hu⟩, error_bind]
    exact ⟨Or.inl heval, fun _ => heval⟩

/-- C6 witness: the colon-free expression `"99Zz"` with its unknown symbol
token `"Zz"`. -/
theorem C6_witness :
    (evaluate_expr (String.toList "99Zz") = Except.error PyErr.keyError ∨
      evaluate_expr (String.toList "99Zz") = Except.error PyErr.indexError) ∧
    (':' ∉ String.toList "99Zz" →
      evaluate_expr (String.toList "99Zz") = Except.error PyErr.keyError) :=
  C6_unknown_symbol_raises (String.toList "99Zz") "Zz" (by decide) rfl

/-- C1: over every table in which `(H,1)` and `(O,16)` resolve (to their
first matching rows `rH` and `rO`), the molecule expression `"2H1:1O16"`
parses to multiplicities `[2,1]` and mass numbers `[1,16]`, and
`get_ame_mass` returns combined mass number `A = 2*1 + 1*16 = 18` and
combined mass `2*mass(H,1) + 1*mass(O,16)`. -/
theorem C1_two_constituent_molecule (df : List NuclideRecord) (rH rO : NuclideRecord)
    (hH : firstMatch df "H" 1 = some rH) (hO : firstMatch df "O" 16 = some rO) :
    get_molecule_info (String.toList "2H1:1O16") =
      Except.ok ([2, 1], [1, 16], ["H", "O"]) ∧
    ∃ res, get_ame_mass df (String.toList "2H1:1O16") = Except.ok res ∧
      res.a = 2 * 1 + 1 * 16 ∧
      res.ame_mass = 2 * rH.ame_tot + 1 * rO.ame_tot := by
  refine ⟨rfl, ?_⟩
  have hres : resolvedRecords df ["H", "O"] [1, 16] = some [rH, rO] := by
    simp [resolvedRecords, hH, hO]
  refine ⟨_, get_ame_mass_resolved df (String.toList "2H1:1O16")
    ["H", "O"] [2, 1] [1, 16] [1, 8] [rH, rO] rfl (by decide) (by decide) hres, ?_, ?_⟩
  · rfl
  · show (List.zipWith (fun (mi : Nat) r => (mi : ℚ) * r.ame_tot) [2, 1] [rH, rO]).sum =
      2 * rH.ame_tot + 1 * rO.ame_tot
    simp only [List.zipWith_cons_cons, List.zipWith_nil_right, List.sum_cons,
      List.sum_nil, Nat.cast_ofNat, Nat.cast_one, add_zero]

/-- C1 witness: the concrete two-row table `dfW`. -/
theorem C1_witness :
    get_molecule_info (String.toList "2H1:1O16") =
      Except.ok ([2, 1], [1, 16], ["H", "O"]) ∧
    ∃ res, get_ame_mass dfW (String.toList "2H1:1O16") = Except.ok res ∧
      res.a = 2 * 1 + 1 * 16 ∧
      res.ame_mass = 2 * hRec.ame_tot + 1 * oRec.ame_tot :=
  C1_two_constituent_molecule dfW hRec oRec rfl rfl

/-- C3: whenever every parsed constituent of an expression resolves to a
table row, the uncertainty slot the code returns, `np.sqrt(ame_unc)`
(modelled as `Real.sqrt` of the accumulated `ame_unc_sq`), equals
the square root of the quadrature sum of record uncertainties weighted
LINEARLY by multiplicity: sqrt of the sum of `multiplicity * uncertainty^2`
over the constituents (not `multiplicity^2`). -/
theorem C3_uncertainty_linear_weighting (df : List NuclideRecord) (expr : List Char)
    (label : List String) (m anums zl : List Nat) (recs : List NuclideRecord)
    (he : evaluate_expr expr = Except.ok (label, m, anums, zl))
    (hm : label.length ≤ m.length) (hne : label ≠ [])
    (hr : resolvedRecords df label anums = some recs) :
    ∃ res, get_ame_mass df expr = Except.ok res ∧
      Real.sqrt (res.ame_unc_sq : ℝ) =
        Real.sqrt
          (((List.zipWith (fun (mi : Nat) r => (mi : ℚ) * r.amunc ^ 2) m recs).sum : ℚ) : ℝ) :=
  ⟨_, get_ame_mass_resolved df expr label m anums zl recs he hm hne hr, rfl⟩

/-- C3 witness: the molecule `"2H1:1O16"` over the concrete table `dfW`. -/
theorem C3_witness :
    ∃ res, get_ame_mass dfW (String.toList "2H1:1O16") = Except.ok res ∧
      Real.sqrt (res.ame_unc_sq : ℝ) =
        Real.sqrt
          (((List.zipWith (fun (mi : Nat) r => (mi : ℚ) * r.amunc ^ 2)
            [2, 1] [hRec, oRec]).sum : ℚ) : ℝ) :=
  C3_uncertainty_linear_weighting dfW (String.toList "2H1:1O16")
    ["H", "O"] [2, 1] [1, 16] [1, 8] [hRec, oRec] rfl (by decide) (by decide)
    (by simp [resolvedRecords, firstMatch, dfW, hRec, oRec, rowMatches])

/-- C4: whenever `get_ame_mass` returns a result at all, its proton number
`z` is the sum of the constituents' proton numbers NOT weighted by
multiplicity, its mass number `a` IS the multiplicity-weighted sum, its
neutron number is `n = a - z`, and its charge is 1. -/
theorem C4_unweighted_proton_sum (df : List NuclideRecord) (expr : List Char)
    (label : List String) (m anums zl : List Nat) (res : AmeResult)
    (he : evaluate_expr expr = Except.ok (label, m, anums, zl))
    (hres : get_ame_mass df expr = Except.ok res) :
    res.z = zl.sum ∧
    res.a = (List.zipWith (fun ai mi => ai * mi) anums m).sum ∧
    res.n = (res.a : Int) - (res.z : Int) ∧
    res.q = 1 := by
  unfold get_ame_mass at hres
  rw [he, ok_bind] at hres
  simp only [] at hres
  cases hidx : buildIdx df label anums with
  | error e =>
    rw [hidx, error_bind] at hres
    cases hres
  | ok idx =>
    rw [hidx, ok_bind] at hres
    by_cases hie : idx.isEmpty = true
    · rw [if_pos hie] at hres
      have hr : Except.ok (AmeResult.mk (String.join label) 0 0
          ((List.zipWith (fun ai mi => ai * mi) anums m).sum) zl.sum
          ((((List.zipWith (fun ai mi => ai * mi) anums m).sum : Nat) : Int) -
            ((zl.sum : Nat) : Int)) 1) =
          Except.ok res := hres
      have hres2 := (Except.ok.injEq _ _).mp hr
      subst hres2
      exact ⟨rfl, rfl, rfl, rfl⟩
    · rw [if_neg hie] at hres
      cases hml : massLoop df m idx with
      | error e =>
        rw [hml, error_bind] at hres
        cases hres
      | ok acc =>
        rw [hml, ok_bind] at hres
        have hr : Except.ok (AmeResult.mk (String.join label) acc.1 acc.2
            ((List.zipWith (fun ai mi => ai * mi) anums m).sum) zl.sum
            ((((List.zipWith (fun ai mi => ai * mi) anums m).sum : Nat) : Int) -
              ((zl.sum : Nat) : Int)) 1) =
            Except.ok res := hres
        have hres2 := (Except.ok.injEq _ _).mp hr
        subst hres2
        exact ⟨rfl, rfl, rfl, rfl⟩

/-- C4 witness: the molecule `"2H1:1O16"` over the concrete table `dfW`:
`z = 1 + 8 = 9` (each proton number once, though hydrogen appears with
multiplicity 2), `a = 1*2 + 16*1 = 18`, `n = a - z`, `q = 1`. -/
theorem C4_witness :
    ∃ res, get_ame_mass dfW (String.toList "2H1:1O16") = Except.ok res ∧
      (res.z = ([1, 8] : List Nat).sum ∧
       res.a = (List.zipWith (fun ai mi => ai * mi) [1, 16] [2, 1]).sum ∧
       res.n = (res.a : Int) - (res.z : Int) ∧
       res.q = 1) := by
  have hres := get_ame_mass_resolved dfW (String.toList "2H1:1O16")
    ["H", "O"] [2, 1] [1, 16] [1, 8] [hRec, oRec] rfl (by decide) (by decide)
    (by simp [resolvedRecords, firstMatch, dfW, hRec, oRec, rowMatches])
  exact ⟨_, hres, C4_unweighted_proton_sum dfW (String.toList "2H1:1O16")
    ["H", "O"] [2, 1] [1, 16] [1, 8] _ rfl hres⟩

/-- Digit-run extraction returns nothing on a digit-free string. -/
lemma findNumbers_no_digits :
    ∀ (l : List Char), (∀ c ∈ l, c.isDigit = false) → findNumbers l = []
  | [], _ => rfl
  | c :: t, h => by
    have hc : c.isDigit = false := h c (List.mem_cons_self c t)
    unfold findNumbers
    rw [hc]
    simp only [Bool.false_eq_true, if_false]
    exact findNumbers_no_digits t (fun x hx => h x (List.mem_cons_of_mem c hx))

/-- A single digit followed by digit-free text extracts as one number. -/
lemma findNumbers_one_digit (c : Char) (s : List Char) (hc : c.isDigit = true)
    (hs : ∀ x ∈ s, x.isDigit = false) :
    findNumbers (c :: s) = [digitVal c] := by
  unfold findNumbers
  rw [hc]
  simp only [if_true]
  cases s with
  | nil => rfl
  | cons d t =>
    have hd : d.isDigit = false := hs d (List.mem_cons_self d t)
    cases t with
    | nil =>
      simp only [hd, Bool.false_eq_true, if_false]
      rw [findNumbers_no_digits [d] (fun x hx => by
        rcases List.mem_singleton.mp hx with rfl
        exact hd)]
    | cons e t2 =>
      simp only [hd, Bool.false_eq_true, if_false]
      rw [findNumbers_no_digits (d :: e :: t2) hs]

/-- Two digits followed by digit-free text extract as one two-digit number. -/
lemma findNumbers_two_digits (c d : Char) (s : List Char)
    (hc : c.isDigit = true) (hd : d.isDigit = true)
    (hs : ∀ x ∈ s, x.isDigit = false) :
    findNumbers (c :: d :: s) = [10 * digitVal c + digitVal d] := by
  unfold findNumbers
  rw [hc]
  simp only [if_true]
  cases s with
  | nil =>
    simp only [hd, if_true]
  | cons e t =>
    have he : e.isDigit = false := hs e (List.mem_cons_self e t)
    simp only [hd, he, if_true, Bool.false_eq_true, if_false]
    rw [findNumbers_no_digits (e :: t) hs]

/-- Three digits followed by digit-free text extract as one number. -/
lemma findNumbers_three_digits (c d e : Char) (s : List Char)
    (hc : c.isDigit = true) (hd : d.isDigit = true) (he : e.isDigit = true)
    (hs : ∀ x ∈ s, x.isDigit = false) :
    findNumbers (c :: d :: e :: s) =
      [100 * digitVal c + 10 * digitVal d + digitVal e] := by
  unfold findNumbers
  rw [hc]
  simp only [hd, he, if_true]
  rw [findNumbers_no_digits s hs]

/-- Symbol extraction skips a leading uppercase-free prefix. -/
lemma findSymbols_skip :
    ∀ (l1 l2 : List Char), (∀ c ∈ l1, c.isUpper = false) →
      findSymbols (l1 ++ l2) = findSymbols l2
  | [], _, _ => rfl
  | c :: t, l2, h => by
    have hc : c.isUpper = false := h c (List.mem_cons_self c t)
    show findSymbols (c :: (t ++ l2)) = findSymbols l2
    conv_lhs => unfold findSymbols
    rw [hc]
    simp only [Bool.false_eq_true, if_false]
    exact findSymbols_skip t l2 (fun x hx => h x (List.mem_cons_of_mem c hx))

/-- Shape of an element-symbol token as the regex and the `symbols` table
use it: one uppercase letter optionally followed by one lowercase letter,
with neither character a digit or a colon. -/
def symToken (s : String) : Bool :=
  match s.data with
  | [u] => u.isUpper && !u.isDigit && !(u == ':')
  | [u, l] => u.isUpper && l.isLower && !u.isDigit && !l.isDigit && !(u == ':') && !(l == ':')
  | _ => false

/-- Every key of the `symbols` dict EXCEPT the lowercase neutron entry
`"n"` is a well-shaped symbol token (the symbol regex only extracts
uppercase-led tokens, so `"n"` can never be extracted from an
expression). -/
lemma symbols_token_except_n :
    symbols.all (fun p => p.1 == "n" || symToken p.1) = true := by decide

/-- A string other than `"n"` with a successful `lookupSym` is a
well-shaped symbol token. -/
lemma lookupSym_token {s : String} {z : Nat} (hn : s ≠ "n")
    (h : lookupSym s = some z) : symToken s = true := by
  unfold lookupSym at h
  cases hf : symbols.find? (fun p => p.1 == s) with
  | none => rw [hf] at h; cases h
  | some pr =>
    have hmem : pr ∈ symbols := List.mem_of_find?_eq_some hf
    have hbeq := List.find?_some hf
    have heq : pr.1 = s := by simpa using hbeq
    have hall := List.all_eq_true.mp symbols_token_except_n pr hmem
    simp only [Bool.or_eq_true, beq_iff_eq, heq] at hall
    rcases hall with hcon | htok
    · exact absurd hcon hn
    · exact htok

/-- The extracted characters of a symbol token are not digits. -/
lemma symToken_no_digit {s : String} (h : symToken s = true) :
    ∀ c ∈ s.data, c.isDigit = false := by
  unfold symToken at h
  intro c hc
  match hd : s.data with
  | [u] =>
    rw [hd] at h hc
    simp only [Bool.and_eq_true, Bool.not_eq_true'] at h
    rcases List.mem_singleton.mp hc with rfl
    exact h.1.2
  | [u, l] =>
    rw [hd] at h hc
    simp only [Bool.and_eq_true, Bool.not_eq_true'] at h
    rcases hc with _ | ⟨_, hc2⟩
    · exact h.1.1.1.2
    · rcases List.mem_singleton.mp hc2 with rfl
      exact h.1.1.2
  | [] => rw [hd] at h; cases h
  | u :: l :: x :: t => rw [hd] at h; cases h

/-- The extracted characters of a symbol token are not colons. -/
lemma symToken_no_colon {s : String} (h : symToken s = true) :
    ∀ c ∈ s.data, c ≠ ':' := by
  unfold symToken at h
  intro c hc
  match hd : s.data with
  | [u] =>
    rw [hd] at h hc
    simp only [Bool.and_eq_true, Bool.not_eq_true', beq_eq_false_iff_ne, ne_eq] at h
    rcases List.mem_singleton.mp hc with rfl
    exact h.2
  | [u, l] =>
    rw [hd] at h hc
    simp only [Bool.and_eq_true, Bool.not_eq_true', beq_eq_false_iff_ne, ne_eq] at h
    rcases hc with _ | ⟨_, hc2⟩
    · exact h.1.2
    · rcases List.mem_singleton.mp hc2 with rfl
      exact h.2
  | [] => rw [hd] at h; cases h
  | u :: l :: x :: t => rw [hd] at h; cases h

/-- The extracted characters of a symbol token are a letter pattern, hence
not uppercase beyond the pattern: the FIRST character is uppercase and any
second is lowercase; in particular no character is a digit, so the token
contributes no digit runs. -/
lemma findSymbols_token (s : String) (h : symToken s = true) :
    findSymbols s.data = [s] := by
  unfold symToken at h
  match hd : s.data with
  | [u] =>
    rw [hd] at h
    simp only [Bool.and_eq_true] at h
    have hmk : String.mk [u] = s := by
      cases s with
      | mk dat =>
        have hd' : dat = [u] := hd
        rw [hd']
    unfold findSymbols
    rw [h.1.1]
    simp only [if_true, hmk]
  | [u, l] =>
    rw [hd] at h
    simp only [Bool.and_eq_true] at h
    have hmk : String.mk [u, l] = s := by
      cases s with
      | mk dat =>
        have hd' : dat = [u, l] := hd
        rw [hd']
    unfold findSymbols
    rw [h.1.1.1.1.1]
    simp only [h.1.1.1.1.2, if_true, hmk]
    rfl
  | [] => rw [hd] at h; cases h
  | u :: l :: x :: t => rw [hd] at h; cases h

/-- Facts about `Nat.digitChar` on digits 0-9: it produces an ASCII digit
character that is neither uppercase nor a colon, and `digitVal` inverts
it. -/
lemma digitChar_facts (k : Nat) (hk : k < 10) :
    (Nat.digitChar k).isDigit = true ∧ (Nat.digitChar k).isUpper = false ∧
      Nat.digitChar k ≠ ':' ∧ digitVal (Nat.digitChar k) = k := by
  interval_cases k <;> exact ⟨by decide, by decide, by decide, by decide⟩

/-- The decimal digit characters of a 1-3 digit mass number `A`, as written
in a single-nuclide expression such as `"85Rb"`. -/
def natDigits (A : Nat) : List Char :=
  if A < 10 then [Nat.digitChar A]
  else if A < 100 then [Nat.digitChar (A / 10), Nat.digitChar (A % 10)]
  else [Nat.digitChar (A / 100), Nat.digitChar (A / 10 % 10), Nat.digitChar (A % 10)]

/-- Character-level facts about `natDigits`. -/
lemma natDigits_props (A : Nat) (hA : A ≤ 999) :
    ∀ c ∈ natDigits A, c.isDigit = true ∧ c.isUpper = false ∧ c ≠ ':' := by
  intro c hc
  unfold natDigits at hc
  by_cases h1 : A < 10
  · rw [if_pos h1] at hc
    rcases List.mem_singleton.mp hc with rfl
    have := digitChar_facts A h1
    exact ⟨this.1, this.2.1, this.2.2.1⟩
  · rw [if_neg h1] at hc
    by_cases h2 : A < 100
    · rw [if_pos h2] at hc
      rcases hc with _ | ⟨_, hc2⟩
      · have := digitChar_facts (A / 10) (by omega)
        exact ⟨this.1, this.2.1, this.2.2.1⟩
      · rcases List.mem_singleton.mp hc2 with rfl
        have := digitChar_facts (A % 10) (by omega)
        exact ⟨this.1, this.2.1, this.2.2.1⟩
    · rw [if_neg h2] at hc
      rcases hc with _ | ⟨_, hc2⟩
      · have := digitChar_facts (A / 100) (by omega)
        exact ⟨this.1, this.2.1, this.2.2.1⟩
      · rcases hc2 with _ | ⟨_, hc3⟩
        · have := digitChar_facts (A / 10 % 10) (by omega)
          exact ⟨this.1, this.2.1, this.2.2.1⟩
        · rcases List.mem_singleton.mp hc3 with rfl
          have := digitChar_facts (A % 10) (by omega)
          exact ⟨this.1, this.2.1, this.2.2.1⟩

/-- Digit-run extraction on `natDigits A` followed by digit-free text
yields exactly `[A]` for `A ≤ 999`. -/
lemma findNumbers_natDigits (A : Nat) (hA : A ≤ 999) (s : List Char)
    (hs : ∀ x ∈ s, x.isDigit = false) :
    findNumbers (natDigits A ++ s) = [A] := by
  unfold natDigits
  by_cases h1 : A < 10
  · rw [if_pos h1]
    have hf := digitChar_facts A h1
    rw [List.singleton_append, findNumbers_one_digit _ _ hf.1 hs, hf.2.2.2]
  · rw [if_neg h1]
    by_cases h2 : A < 100
    · rw [if_pos h2]
      have hf1 := digitChar_facts (A / 10) (by omega)
      have hf2 := digitChar_facts (A % 10) (by omega)
      show findNumbers (Nat.digitChar (A / 10) :: Nat.digitChar (A % 10) :: s) = [A]
      rw [findNumbers_two_digits _ _ _ hf1.1 hf2.1 hs, hf1.2.2.2, hf2.2.2.2]
      congr 1
      omega
    · rw [if_neg h2]
      have hf1 := digitChar_facts (A / 100) (by omega)
      have hf2 := digitChar_facts (A / 10 % 10) (by omega)
      have hf3 := digitChar_facts (A % 10) (by omega)
      show findNumbers (Nat.digitChar (A / 100) :: Nat.digitChar (A / 10 % 10) ::
        Nat.digitChar (A % 10) :: s) = [A]
      rw [findNumbers_three_digits _ _ _ _ hf1.1 hf2.1 hf3.1 hs,
        hf1.2.2.2, hf2.2.2.2, hf3.2.2.2]
      congr 1
      omega

/-- C5 amended: for every mass number `A` with 1-3 decimal digits and every
element symbol `EL` known to the periodic symbol table OTHER THAN the
lowercase neutron entry `"n"` (with proton number `zEL`), if the table
resolves `(EL, A)` to a first row `r`, then the single-nuclide expression
`"{A}{EL}"` evaluates to multiplicity 1, mass number `A`, proton number
`zEL`, and `get_ame_mass` returns combined mass exactly `r.ame_tot`, mass
number `A` and proton number `zEL`.  The exception `"n"` is forced by the
counterexample below: the symbol regex only extracts uppercase-led tokens,
so `"n"` is invisible to the parser. -/
theorem C5_single_nuclide (df : List NuclideRecord) (A zEL : Nat) (EL : String)
    (r : NuclideRecord) (hA1 : 1 ≤ A) (hA2 : A ≤ 999) (hn : EL ≠ "n")
    (hz : lookupSym EL = some zEL) (hr : firstMatch df EL A = some r) :
    evaluate_expr (natDigits A ++ EL.data) = Except.ok ([EL], [1], [A], [zEL]) ∧
    ∃ res, get_ame_mass df (natDigits A ++ EL.data) = Except.ok res ∧
      res.ame_mass = r.ame_tot ∧ res.a = A ∧ res.z = zEL := by
  have htok : symToken EL = true := lookupSym_token hn hz
  have hnum : findNumbers (natDigits A ++ EL.data) = [A] :=
    findNumbers_natDigits A hA2 EL.data (symToken_no_digit htok)
  have hsym : findSymbols (natDigits A ++ EL.data) = [EL] := by
    rw [findSymbols_skip (natDigits A) EL.data
      (fun c hc => (natDigits_props A hA2 c hc).2.1)]
    exact findSymbols_token EL htok
  have hcol : ':' ∉ natDigits A ++ EL.data := by
    intro hmem
    rcases List.mem_append.mp hmem with hin | hin
    · exact (natDigits_props A hA2 ':' hin).2.2 rfl
    · exact symToken_no_colon htok ':' hin rfl
  have heval : evaluate_expr (natDigits A ++ EL.data) =
      Except.ok ([EL], [1], [A], [zEL]) := by
    unfold evaluate_expr get_number_symbol
    rw [if_neg hcol]
    simp [hnum, hsym, exMapM, symLookupE, hz]
  refine ⟨heval, ?_⟩
  have hres : resolvedRecords df [EL] [A] = some [r] := by
    simp [resolvedRecords, hr]
  refine ⟨_, get_ame_mass_resolved df (natDigits A ++ EL.data)
    [EL] [1] [A] [zEL] [r] heval (le_refl 1) (List.cons_ne_nil EL []) hres, ?_, ?_, ?_⟩
  · show (List.zipWith (fun (mi : Nat) rr => (mi : ℚ) * rr.ame_tot) [1] [r]).sum = r.ame_tot
    simp
  · show (List.zipWith (fun ai mi => ai * mi) [A] [1]).sum = A
    simp
  · show ([zEL] : List Nat).sum = zEL
    simp

/-- The neutron row for the C5 counterexample table (AME-2020-like
values). -/
def nRec : NuclideRecord :=
  ⟨1, 0, 1, "n", 8071318 / 1000, 44 / 100, 47 / 100000, 100866491590 / 100000, 1⟩

/-- C5 counterexample table: just the neutron row. -/
def dfC5 : List NuclideRecord := [nRec]

/-- C5 counterexample: `"n"` IS a known symbol (proton number 0) and the
table resolves `("n", 1)`, yet the single-nuclide expression `"1n"` does
not evaluate to one constituent of multiplicity 1 with the stored mass: the
symbol regex extracts no token from the lowercase `"n"`, evaluation returns
an empty symbol list against the number list `[1]`, and `get_ame_mass`
takes the empty-index branch and returns a zero-mass result instead of the
stored neutron mass. -/
theorem C5_counterexample :
    lookupSym "n" = some 0 ∧
    firstMatch dfC5 "n" 1 = some nRec ∧
    evaluate_expr (natDigits 1 ++ "n".data) = Except.ok ([], [1], [1], []) ∧
    get_ame_mass dfC5 (natDigits 1 ++ "n".data) =
      Except.ok (AmeResult.mk "" 0 0 1 0 1 1) ∧
    nRec.ame_tot ≠ 0 :=
  ⟨rfl, rfl, rfl, rfl, by norm_num [nRec]⟩

/-- C5 witness: the expression `"16O"` over the concrete table `dfW`. -/
theorem C5_witness :
    evaluate_expr (natDigits 16 ++ "O".data) = Except.ok (["O"], [1], [16], [8]) ∧
    ∃ res, get_ame_mass dfW (natDigits 16 ++ "O".data) = Except.ok res ∧
      res.ame_mass = oRec.ame_tot ∧ res.a = 16 ∧ res.z = 8 :=
  C5_single_nuclide dfW 16 8 "O" oRec (by decide) (by decide) (by decide) rfl rfl

end Ame

